import Mathlib

set_option autoImplicit false

/-!
Shallow embedding of run_script_service.py: a periodic runner with a persisted
interval configuration, a line-trimmed log file, and a polling wait loop.
File states are modelled as Option values (none = the file does not exist),
file contents as Lean Strings, and the command line as a list of Strings
including the program name, mirroring sys.argv.
-/

/-- Outcome of parsing the persisted configuration file, abstracting over the
JSON text: the file is either unparseable (json.load raises), a JSON object
without the key interval, or a JSON object whose key interval holds the
integer n - the only shape save_config ever writes. -/
inductive ConfFile where
  | corrupt : ConfFile
  | objNoInterval : ConfFile
  | objInterval : Int → ConfFile
deriving DecidableEq

/-- RunScriptService.load_config (src lines 27-35): when the config file
exists and parses, the interval becomes config.get with default 3600; a parse
exception is caught and leaves the in-memory interval unchanged, as does a
missing file. The current in-memory interval (3600 at startup, from init) is
passed as init. -/
def load_config : Option ConfFile → Int → Int
  | none, init => init
  | some ConfFile.corrupt, init => init
  | some ConfFile.objNoInterval, _ => 3600
  | some (ConfFile.objInterval n), _ => n

/-- RunScriptService.save_config (src lines 37-44): write the JSON object with
key interval holding the current in-memory interval. -/
def save_config (interval : Int) : Option ConfFile :=
  some (ConfFile.objInterval interval)

/-- RunScriptService.set_interval (src lines 46-50): set the in-memory
interval, persist it, and print a confirmation; returns the new file state and
the printed line. -/
def set_interval (interval : Int) : Option ConfFile × List String :=
  (save_config interval, ["Interval set to " ++ toString interval ++ " seconds"])

/-- ASCII whitespace accepted by Python str.strip and around int() literals. -/
def isPySpace (c : Char) : Bool :=
  c = ' ' || c = '\t' || c = '\n' || c = '\r' || c = '\x0b' || c = '\x0c'

/-- Python str.strip with no argument: remove leading and trailing whitespace
from a character list. -/
def pyStrip (cs : List Char) : List Char :=
  ((cs.dropWhile isPySpace).reverse.dropWhile isPySpace).reverse

/-- Python str.strip on a String, as used on captured stdout and stderr. -/
def pyStripS (s : String) : String :=
  String.mk (pyStrip s.data)

/-- Digits of a Python integer literal after the first: a run of decimal
digits in which a single underscore may stand between two digits. -/
def pyDigitsAux : Nat → List Char → Option Nat
  | acc, [] => some acc
  | acc, c :: rest =>
    if c = '_' then
      match rest with
      | [] => none
      | d :: rest2 =>
        if d.isDigit then pyDigitsAux (acc * 10 + (d.toNat - 48)) rest2 else none
    else if c.isDigit then pyDigitsAux (acc * 10 + (c.toNat - 48)) rest
    else none

/-- Digits of a Python integer literal: at least one decimal digit, then the
underscore-separated continuation. -/
def pyDigitsStart : List Char → Option Nat
  | [] => none
  | c :: rest => if c.isDigit then pyDigitsAux (c.toNat - 48) rest else none

/-- The built-in int() applied to a string, as called at src line 142:
optional surrounding whitespace, an optional sign, then decimal digits
(single underscores allowed between digits); any other shape raises
ValueError, modelled as none. Restricted to ASCII digits and whitespace. -/
def pyParseInt (s : String) : Option Int :=
  match pyStrip s.data with
  | '+' :: rest => (pyDigitsStart rest).map (fun n => (n : Int))
  | '-' :: rest => (pyDigitsStart rest).map (fun n => -(n : Int))
  | rest => (pyDigitsStart rest).map (fun n => (n : Int))

/-- Observable outcome of one invocation of main (src lines 131-153): the
configuration file state afterwards, the exit code (none when main enters the
service loop, which only returns through a signal), the lines printed by main
or set_interval, and the interval the service loop is entered with (none when
no loop is run). -/
structure MainResult where
  config : Option ConfFile
  exitCode : Option Nat
  printed : List String
  loop : Option Int
deriving DecidableEq

/-- main (src lines 131-153) acting on the persisted configuration file state
fs, with argv the full argument vector including the program name. The service
object is constructed first, loading the interval from fs over the default
3600; a successful set-interval falls off the end of main, exiting 0. The
quotes of the unknown-command message are written as escapes. -/
def mainStep (argv : List String) (fs : Option ConfFile) : MainResult :=
  let interval := load_config fs 3600
  match argv with
  | _ :: command :: rest =>
    if command = "set-interval" then
      if rest.length ≠ 1 then
        ⟨fs, some 1, ["Usage: python3 run_script_service.py set-interval <seconds>"], none⟩
      else
        match pyParseInt (rest.headD "") with
        | some n => ⟨(set_interval n).1, some 0, (set_interval n).2, none⟩
        | none => ⟨fs, some 1, ["Invalid interval value. Must be an integer."], none⟩
    else if command = "run" then
      ⟨fs, none, ["Service started with " ++ toString interval ++ " second interval"], some interval⟩
    else
      ⟨fs, some 1, ["Unknown command. Use \x27run\x27 or \x27set-interval <seconds>\x27"], none⟩
  | _ => ⟨fs, none, ["Service started with " ++ toString interval ++ " second interval"], some interval⟩

/-- Lines of a character list in the manner of Python readlines: split after
every newline character, keeping the terminator; a trailing fragment without a
terminator is a final line; empty text has no lines. -/
def linesOf : List Char → List (List Char)
  | [] => []
  | c :: rest =>
    if c = '\n' then [c] :: linesOf rest
    else
      match linesOf rest with
      | [] => [[c]]
      | l :: ls => (c :: l) :: ls

/-- Python file.readlines() applied to the file content s. -/
def pyReadlines (s : String) : List String :=
  (linesOf s.data).map String.mk

/-- Number of lines of an optional file; a missing file has none. -/
def lineCount : Option String → Nat
  | none => 0
  | some s => (pyReadlines s).length

/-- The log-retention bound, src line 18: self.max_log_lines = 100. -/
def maxLogLines : Nat := 100

/-- The Python slice l[-k:] on a list: the trailing k elements, except that
k = 0 denotes the whole list (since -0 is 0). -/
def pySliceLast (k : Nat) (l : List String) : List String :=
  if k = 0 then l else l.drop (l.length - k)

/-- RunScriptService.trim_log (src lines 52-65) acting on the log file state:
a missing file returns immediately; otherwise the lines are read and, only
when there are more than max_log_lines of them, the file is rewritten with its
trailing max_log_lines lines; otherwise no write happens. -/
def trim_log : Option String → Option String
  | none => none
  | some s =>
    let lines := pyReadlines s
    if lines.length > maxLogLines then
      some (String.join (pySliceLast maxLogLines lines))
    else
      some s

/-- Appending text to a file opened in append mode: a missing file is created
holding exactly the written text. -/
def appendFile : Option String → String → Option String
  | none, t => some t
  | some s, t => some (s ++ t)

/-- Result of subprocess.run with captured text output (src lines 73-78). -/
structure ProcResult where
  returncode : Int
  stdout : String
  stderr : String

/-- Outcome of attempting to launch the child command: either a completed
process, or an exception raised during invocation, carrying its message. -/
inductive ExecOutcome where
  | completed : ProcResult → ExecOutcome
  | raised : String → ExecOutcome

/-- The separator written after every entry, src lines 86 and 99: 50 dashes. -/
def dashLine : String := String.mk (List.replicate 50 '-')

/-- Log entry built by execute_script for a completed run (src lines 80-86):
the timestamp line with the exit code, a STDOUT line when captured stdout is
nonempty (Python truthiness of the string), a STDERR line when captured stderr
is nonempty, then the separator line. -/
def mkLogEntry (timestamp : String) (r : ProcResult) : String :=
  let e1 := "[" ++ timestamp ++ "] Exit code: " ++ toString r.returncode ++ "\n"
  let e2 := if r.stdout ≠ "" then e1 ++ ("STDOUT: " ++ pyStripS r.stdout ++ "\n") else e1
  let e3 := if r.stderr ≠ "" then e2 ++ ("STDERR: " ++ pyStripS r.stderr ++ "\n") else e2
  e3 ++ (dashLine ++ "\n")

/-- Error entry built by the except handler (src lines 97-99). -/
def mkErrorEntry (timestamp msg : String) : String :=
  "[" ++ timestamp ++ "] ERROR: " ++ msg ++ "\n" ++ (dashLine ++ "\n")

/-- RunScriptService.execute_script (src lines 67-104) acting on the log file
state: for a completed run, append the entry and then trim; when the launch
raised, the handler appends the error entry and returns without trimming. The
surrounding try/except means neither path lets the exception escape, so both
paths are total functions on the log state. -/
def execute_script (timestamp : String) (outcome : ExecOutcome)
    (log : Option String) : Option String :=
  match outcome with
  | ExecOutcome.completed r => trim_log (appendFile log (mkLogEntry timestamp r))
  | ExecOutcome.raised msg => appendFile log (mkErrorEntry timestamp msg)

/-- A full line: some newline-free text closed by one newline character. -/
def isFullLine (l : List Char) : Prop :=
  ∃ w, '\n' ∉ w ∧ l = w ++ ['\n']

/-- A line allowed in last position: a full line, or nonempty newline-free
text without a terminator. -/
def isTailLine (l : List Char) : Prop :=
  isFullLine l ∨ ('\n' ∉ l ∧ l ≠ [])

/-- Well-formed output of linesOf: every line but the last is a full line, and
the last is a tail line. -/
def goodLines : List (List Char) → Prop
  | [] => True
  | [l] => isTailLine l
  | l :: ls => isFullLine l ∧ goodLines ls

/-- The inner wait loop of RunScriptService.run (src lines 115-118): starting
from a given elapsed count, repeat one-second sleeps while elapsed < interval
and the running flag still holds; running n is the flag's value as observed by
the check after n completed sleeps. Returns the final elapsed count, which is
the total number of one-second sleeps performed. -/
def waitSleeps (running : Nat → Bool) (interval : Nat) (elapsed : Nat) : Nat :=
  if h : elapsed < interval ∧ running elapsed = true then
    waitSleeps running interval (elapsed + 1)
  else elapsed
termination_by interval - elapsed
decreasing_by
  simp_wf
  omega

/-- A log file holding one hundred one-character lines, used to exhibit the
missing trim on the error path. -/
def hundredLineLog : String := String.join (List.replicate 100 "x\n")

/-- Reduction of mainStep on a well-formed set-interval invocation, shared by
the claims about configuration writes. -/
lemma mainStep_set_interval (prog s : String) (n : Int) (fs : Option ConfFile)
    (h : pyParseInt s = some n) :
    mainStep [prog, "set-interval", s] fs
      = ⟨some (ConfFile.objInterval n), some 0,
         ["Interval set to " ++ toString n ++ " seconds"], none⟩ := by
  simp [mainStep, set_interval, save_config, h]

/-- C9: invoking the program with no command-line arguments behaves
identically to invoking it with the single argument run: the same service
loop is entered, with the same loaded configuration, the same file state and
the same printed output. -/
theorem noArgs_equiv_run (prog : String) (fs : Option ConfFile) :
    mainStep [prog] fs = mainStep [prog, "run"] fs := rfl

/-- C1 counterexample: the set-interval command accepts the argument -5 and
writes interval -5, which is not positive, to the configuration file; the
command validates nothing beyond integer syntax, refuting the claimed
positivity invariant for configuration writes. -/
theorem setInterval_accepts_nonpositive :
    (mainStep ["run_script_service.py", "set-interval", "-5"] none).config
      = some (ConfFile.objInterval (-5)) ∧ ¬ (0 < (-5 : Int)) :=
  ⟨by decide, by decide⟩

/-- C1 amended: the set-interval command stores exactly the parsed integer,
whether positive or not; and on a missing configuration file, or a parse
failure during load, the in-memory interval keeps the startup default 3600. -/
theorem setInterval_stores_parsed (prog s : String) (n : Int) (fs : Option ConfFile)
    (h : pyParseInt s = some n) :
    (mainStep [prog, "set-interval", s] fs).config = some (ConfFile.objInterval n)
      ∧ load_config none 3600 = 3600
      ∧ load_config (some ConfFile.corrupt) 3600 = 3600 := by
  rw [mainStep_set_interval prog s n fs h]
  exact ⟨rfl, rfl, rfl⟩

/-- Witness for the amended C1 at the concrete argument 7. -/
theorem setInterval_stores_parsed_witness :
    pyParseInt "7" = some 7
      ∧ ((mainStep ["p", "set-interval", "7"] none).config
            = some (ConfFile.objInterval 7)
        ∧ load_config none 3600 = 3600
        ∧ load_config (some ConfFile.corrupt) 3600 = 3600) :=
  ⟨by decide, setInterval_stores_parsed "p" "7" 7 none (by decide)⟩

/-- C3: for every positive integer accepted by set-interval, a fresh
configuration load after the command yields exactly that interval: save
followed by load round-trips the value. -/
theorem setInterval_roundtrip (prog s : String) (n : Int) (fs : Option ConfFile)
    (hp : pyParseInt s = some n) (hpos : 0 < n) :
    load_config ((mainStep [prog, "set-interval", s] fs).config) 3600 = n := by
  rw [mainStep_set_interval prog s n fs hp]
  rfl

/-- Witness for C3 at the concrete argument 5. -/
theorem setInterval_roundtrip_witness :
    pyParseInt "5" = some 5 ∧ 0 < (5 : Int)
      ∧ load_config ((mainStep ["p", "set-interval", "5"] none).config) 3600 = 5 :=
  ⟨by decide, by decide,
    setInterval_roundtrip "p" "5" 5 none (by decide) (by decide)⟩

/-- C5: every invalid invocation - set-interval with a missing or an extra
argument, set-interval with a non-integer argument, or an unknown first
command - exits with status 1, prints a message, and leaves the configuration
file unchanged. -/
theorem invalid_invocation (prog command : String) (rest : List String)
    (fs : Option ConfFile)
    (h : (command = "set-interval" ∧ rest.length ≠ 1)
       ∨ (command = "set-interval" ∧ rest.length = 1
            ∧ pyParseInt (rest.headD "") = none)
       ∨ (command ≠ "set-interval" ∧ command ≠ "run")) :
    (mainStep (prog :: command :: rest) fs).exitCode = some 1
      ∧ (mainStep (prog :: command :: rest) fs).config = fs
      ∧ (mainStep (prog :: command :: rest) fs).printed ≠ [] := by
  rcases h with ⟨hc, hlen⟩ | ⟨hc, hlen, hparse⟩ | ⟨hc1, hc2⟩
  · subst hc
    simp [mainStep, hlen]
  · subst hc
    obtain ⟨a, rfl⟩ : ∃ a, rest = [a] := by
      cases rest with
      | nil => simp at hlen
      | cons a t =>
        cases t with
        | nil => exact ⟨a, rfl⟩
        | cons b t2 => simp at hlen
    simp only [List.headD] at hparse
    simp [mainStep, hparse]
  · simp [mainStep, hc1, hc2]

/-- Witness for C5 at the concrete unknown command status. -/
theorem invalid_invocation_witness :
    (("status" = "set-interval" ∧ ([] : List String).length ≠ 1)
       ∨ ("status" = "set-interval" ∧ ([] : List String).length = 1
            ∧ pyParseInt (([] : List String).headD "") = none)
       ∨ ("status" ≠ "set-interval" ∧ "status" ≠ "run"))
      ∧ ((mainStep ["p", "status"] none).exitCode = some 1
        ∧ (mainStep ["p", "status"] none).config = none
        ∧ (mainStep ["p", "status"] none).printed ≠ []) :=
  ⟨by decide, invalid_invocation "p" "status" [] none (by decide)⟩

/-- Data of an appended string is the appended data. -/
lemma data_append (a b : String) : (a ++ b).data = a.data ++ b.data := by
  cases a
  cases b
  rfl

/-- Data of a constructed string. -/
@[simp] lemma data_mk (cs : List Char) : (String.mk cs).data = cs := rfl

/-- Appending the empty string on the left is the identity. -/
lemma empty_append (s : String) : "" ++ s = s := by
  cases s
  rfl

/-- Appending the empty string on the right is the identity. -/
lemma append_empty (s : String) : s ++ "" = s := by
  cases s with
  | mk d => exact congrArg String.mk (List.append_nil d)

/-- String concatenation is associative. -/
lemma str_append_assoc (a b c : String) : (a ++ b) ++ c = a ++ (b ++ c) := by
  cases a with
  | mk x =>
    cases b with
    | mk y =>
      cases c with
      | mk z => exact congrArg String.mk (List.append_assoc x y z)

/-- Closing a newline-free prefix with a newline character. -/
lemma mk_data_nl (a : String) : String.mk (a.data ++ ['\n']) = a ++ "\n" := by
  cases a
  rfl

@[simp] lemma linesOf_nil : linesOf [] = [] := rfl

/-- Splitting text that starts with a full line: the newline-free prefix w and
its terminator form the first line, and the rest splits on its own. -/
lemma linesOf_line_append (w ds : List Char) (hw : '\n' ∉ w) :
    linesOf (w ++ '\n' :: ds) = (w ++ ['\n']) :: linesOf ds := by
  induction w with
  | nil => simp [linesOf]
  | cons c w ih =>
    have hc : c ≠ '\n' := fun h => hw (h ▸ List.mem_cons_self c w)
    have hw2 : '\n' ∉ w := fun h => hw (List.mem_cons_of_mem c h)
    simp [linesOf, hc, ih hw2]

/-- Newline-free nonempty text is a single line. -/
lemma linesOf_no_newline (w : List Char) (hw : '\n' ∉ w) (hne : w ≠ []) :
    linesOf w = [w] := by
  induction w with
  | nil => cases hne rfl
  | cons c w ih =>
    have hc : c ≠ '\n' := fun h => hw (h ▸ List.mem_cons_self c w)
    have hw2 : '\n' ∉ w := fun h => hw (List.mem_cons_of_mem c h)
    rcases eq_or_ne w [] with rfl | hwne
    · simp [linesOf, hc]
    · simp [linesOf, hc, ih hw2 hwne]

/-- Prepending a non-newline character preserves being a full line. -/
lemma isFullLine_cons (c : Char) (l : List Char) (hc : c ≠ '\n') :
    isFullLine l → isFullLine (c :: l) := by
  rintro ⟨w, hw, rfl⟩
  refine ⟨c :: w, ?_, rfl⟩
  intro hm
  rcases List.mem_cons.mp hm with h1 | h1
  · exact hc h1.symm
  · exact hw h1

/-- Prepending a non-newline character preserves being a tail line. -/
lemma isTailLine_cons (c : Char) (l : List Char) (hc : c ≠ '\n') :
    isTailLine l → isTailLine (c :: l) := by
  intro h
  rcases h with h | ⟨h1, _⟩
  · exact Or.inl (isFullLine_cons c l hc h)
  · refine Or.inr ⟨?_, by simp⟩
    intro hm
    rcases List.mem_cons.mp hm with h3 | h3
    · exact hc h3.symm
    · exact h1 h3

/-- The tail of a well-formed line list is well-formed. -/
lemma goodLines_tail (l : List Char) (ls : List (List Char)) :
    goodLines (l :: ls) → goodLines ls := by
  cases ls with
  | nil => exact fun _ => trivial
  | cons l2 t => exact fun h => h.2

/-- A full line in front of a well-formed line list is well-formed. -/
lemma goodLines_cons (l : List Char) (ls : List (List Char))
    (hl : isFullLine l) (hls : goodLines ls) : goodLines (l :: ls) := by
  cases ls with
  | nil => exact Or.inl hl
  | cons l2 t => exact ⟨hl, hls⟩

/-- The output of linesOf is a well-formed line list. -/
lemma goodLines_linesOf (cs : List Char) : goodLines (linesOf cs) := by
  induction cs with
  | nil => trivial
  | cons c rest ih =>
    by_cases hc : c = '\n'
    · subst hc
      simp only [linesOf, if_pos rfl]
      exact goodLines_cons _ _ ⟨[], by simp, rfl⟩ ih
    · simp only [linesOf, if_neg hc]
      cases hres : linesOf rest with
      | nil =>
        refine Or.inr ⟨?_, by simp⟩
        intro hm
        rcases List.mem_cons.mp hm with h1 | h1
        · exact hc h1.symm
        · simp at h1
      | cons l ls =>
        rw [hres] at ih
        cases ls with
        | nil => exact isTailLine_cons c l hc ih
        | cons l2 t => exact ⟨isFullLine_cons c l hc ih.1, ih.2⟩

/-- Rejoining a well-formed line list and splitting it again is the
identity. -/
lemma linesOf_join (ls : List (List Char)) (h : goodLines ls) :
    linesOf ls.join = ls := by
  induction ls with
  | nil => simp
  | cons l t ih =>
    cases t with
    | nil =>
      rcases h with ⟨w, hw, rfl⟩ | ⟨h1, h2⟩
      · simpa using linesOf_line_append w [] hw
      · simpa using linesOf_no_newline l h1 h2
    | cons l2 t2 =>
      rcases h.1 with ⟨w, hw, rfl⟩
      have hj : ((w ++ ['\n']) :: l2 :: t2).join = w ++ '\n' :: (l2 :: t2).join := by
        simp
      rw [hj, linesOf_line_append w _ hw, ih h.2]

/-- Dropping a prefix of a well-formed line list keeps it well-formed. -/
lemma goodLines_drop (ls : List (List Char)) (h : goodLines ls) (k : Nat) :
    goodLines (ls.drop k) := by
  induction k generalizing ls with
  | zero => exact h
  | succ k ih =>
    cases ls with
    | nil => trivial
    | cons l t => exact ih t (goodLines_tail l t h)

/-- Folding string concatenation over constructed strings concatenates the
underlying character lists. -/
lemma join_mk_foldl (xss : List (List Char)) (a : List Char) :
    (xss.map String.mk).foldl (fun r s => r ++ s) (String.mk a)
      = String.mk (a ++ xss.join) := by
  induction xss generalizing a with
  | nil => simp
  | cons x t ih =>
    simp only [List.map_cons, List.foldl_cons]
    rw [show String.mk a ++ String.mk x = String.mk (a ++ x) from rfl, ih]
    simp [List.append_assoc]

/-- String.join of constructed strings constructs the joined lists. -/
lemma join_map_mk (xss : List (List Char)) :
    String.join (xss.map String.mk) = String.mk xss.join := by
  simpa [String.join] using join_mk_foldl xss []

/-- Reading back the rejoined tail of a split: dropping lines and rejoining
them gives a text whose lines are exactly the dropped-to lines. -/
lemma readlines_join_drop (cs : List Char) (d : Nat) :
    pyReadlines (String.mk (((linesOf cs).drop d).join))
      = ((linesOf cs).drop d).map String.mk := by
  simp only [pyReadlines, data_mk]
  rw [linesOf_join _ (goodLines_drop _ (goodLines_linesOf cs) d)]

/-- Reduction of trim_log on an oversized log: the file is rewritten with the
joined trailing maxLogLines lines. -/
lemma trim_log_exceeds_core (s : String) (h : maxLogLines < (pyReadlines s).length) :
    trim_log (some s)
      = some (String.mk (((linesOf s.data).drop
          ((pyReadlines s).length - maxLogLines)).join)) := by
  simp only [trim_log]
  rw [if_pos h]
  have h0 : maxLogLines ≠ 0 := by decide
  rw [show pySliceLast maxLogLines (pyReadlines s)
      = (pyReadlines s).drop ((pyReadlines s).length - maxLogLines) from by
    simp [pySliceLast, h0]]
  rw [show (pyReadlines s).drop ((pyReadlines s).length - maxLogLines)
      = ((linesOf s.data).drop ((pyReadlines s).length - maxLogLines)).map String.mk from by
    simp [pyReadlines, List.map_drop]]
  rw [join_map_mk]

/-- An oversized log has exactly maxLogLines lines after trimming. -/
lemma trim_log_count_exceeds (s : String) (h : maxLogLines < (pyReadlines s).length) :
    lineCount (trim_log (some s)) = maxLogLines := by
  rw [trim_log_exceeds_core s h]
  simp only [lineCount]
  rw [readlines_join_drop]
  have hlen : (pyReadlines s).length = (linesOf s.data).length := by
    simp [pyReadlines]
  simp only [List.length_map, List.length_drop]
  omega

/-- Trimming any log state leaves at most maxLogLines lines. -/
lemma trim_log_bound (o : Option String) : lineCount (trim_log o) ≤ maxLogLines := by
  cases o with
  | none => exact Nat.zero_le _
  | some s =>
    by_cases hgt : maxLogLines < (pyReadlines s).length
    · exact le_of_eq (trim_log_count_exceeds s hgt)
    · have hq : trim_log (some s) = some s := by
        simp only [trim_log]
        rw [if_neg (by omega)]
      rw [hq]
      simpa [lineCount] using Nat.le_of_not_lt hgt

/-- C4: on a log whose line count exceeds max_log_lines, trimming yields a
file whose lines are exactly the trailing max_log_lines lines of the pre-trim
content, a raw line-count cut, and there are exactly max_log_lines of them. -/
theorem trim_log_exceeds (s : String) (h : maxLogLines < (pyReadlines s).length) :
    pyReadlines ((trim_log (some s)).getD "")
        = (pyReadlines s).drop ((pyReadlines s).length - maxLogLines)
      ∧ lineCount (trim_log (some s)) = maxLogLines := by
  refine ⟨?_, trim_log_count_exceeds s h⟩
  rw [trim_log_exceeds_core s h]
  simp only [Option.getD_some]
  rw [readlines_join_drop]
  simp [pyReadlines, List.map_drop]

/-- A log of one hundred and one one-character lines, exceeding the bound. -/
def overLineLog : String := String.join (List.replicate 101 "x\n")

set_option maxRecDepth 80000 in
/-- Witness for C4 on a concrete 101-line log. -/
theorem trim_log_exceeds_witness :
    maxLogLines < (pyReadlines overLineLog).length
      ∧ (pyReadlines ((trim_log (some overLineLog)).getD "")
            = (pyReadlines overLineLog).drop
                ((pyReadlines overLineLog).length - maxLogLines)
        ∧ lineCount (trim_log (some overLineLog)) = maxLogLines) :=
  ⟨by decide, trim_log_exceeds overLineLog (by decide)⟩

/-- C10: outside its trigger condition the trim operation is a no-op: a
missing log file stays missing with no write, and an existing file with at
most max_log_lines lines is left exactly unchanged. -/
theorem trim_log_noop (s : String) (h : (pyReadlines s).length ≤ maxLogLines) :
    trim_log none = none ∧ trim_log (some s) = some s := by
  refine ⟨rfl, ?_⟩
  simp only [trim_log]
  rw [if_neg (by omega)]

/-- Witness for C10 on a concrete two-line log. -/
theorem trim_log_noop_witness :
    (pyReadlines "a\nb\n").length ≤ maxLogLines
      ∧ (trim_log none = none ∧ trim_log (some "a\nb\n") = some "a\nb\n") :=
  ⟨by decide, trim_log_noop "a\nb\n" (by decide)⟩

/-- C2 amended: after a success-path cycle the log always has at most
max_log_lines lines, because the append is followed by a trim; the error path
performs no trim (see the counterexample). -/
theorem success_cycle_within_bound (timestamp : String) (r : ProcResult)
    (log : Option String) :
    lineCount (execute_script timestamp (ExecOutcome.completed r) log)
      ≤ maxLogLines :=
  trim_log_bound _

set_option maxRecDepth 80000 in
/-- C2 counterexample: starting from a log of exactly one hundred lines, a
cycle on the invocation-error path appends a two-line error entry and performs
no trim, leaving one hundred and two lines - more than max_log_lines - after
the cycle. -/
theorem error_cycle_exceeds_bound :
    maxLogLines < lineCount (execute_script "2024-01-01 00:00:00"
      (ExecOutcome.raised "No such file or directory") (some hundredLineLog)) := by
  decide

/-- Reading the lines of a text that starts with a full line: the line splits
off and the rest splits on its own. -/
lemma pyReadlines_cons (a t : String) (ha : '\n' ∉ a.data) :
    pyReadlines ((a ++ "\n") ++ t) = (a ++ "\n") :: pyReadlines t := by
  have hd : ((a ++ "\n") ++ t).data = a.data ++ '\n' :: t.data := by
    rw [data_append, data_append]
    rw [show ("\n" : String).data = ['\n'] from rfl, List.append_assoc]
    rfl
  simp only [pyReadlines, hd]
  rw [linesOf_line_append _ _ ha]
  simp only [List.map_cons]
  rw [mk_data_nl]

/-- A single terminated newline-free line reads back as itself. -/
lemma pyReadlines_single (a : String) (ha : '\n' ∉ a.data) :
    pyReadlines (a ++ "\n") = [a ++ "\n"] := by
  have hd : (a ++ "\n").data = a.data ++ '\n' :: [] := by
    rw [data_append]
  simp only [pyReadlines, hd]
  rw [linesOf_line_append _ _ ha]
  simp [mk_data_nl]

/-- C6: when launching the external command raises, the execution step appends
to the log exactly one entry of the form timestamp line with ERROR and the
message, followed by the separator line; the handler returns a log state
instead of letting the exception escape, so the loop continues. -/
theorem error_entry_appended (timestamp msg : String) (log : Option String)
    (hts : '\n' ∉ timestamp.data) (hmsg : '\n' ∉ msg.data) :
    execute_script timestamp (ExecOutcome.raised msg) log
        = some ((log.getD "") ++ mkErrorEntry timestamp msg)
      ∧ pyReadlines (mkErrorEntry timestamp msg)
        = ["[" ++ timestamp ++ "] ERROR: " ++ msg ++ "\n", dashLine ++ "\n"] := by
  have hdash : '\n' ∉ dashLine.data := by decide
  have ha : '\n' ∉ ("[" ++ timestamp ++ "] ERROR: " ++ msg).data := by
    simp only [data_append, List.mem_append, not_or]
    exact ⟨⟨⟨by decide, hts⟩, by decide⟩, hmsg⟩
  constructor
  · cases log with
    | none =>
      show some (mkErrorEntry timestamp msg) = some ("" ++ mkErrorEntry timestamp msg)
      rw [empty_append]
    | some s => rfl
  · have hshape : mkErrorEntry timestamp msg
        = (("[" ++ timestamp ++ "] ERROR: " ++ msg) ++ "\n") ++ (dashLine ++ "\n") := rfl
    rw [hshape, pyReadlines_cons _ _ ha, pyReadlines_single _ hdash]

/-- Witness for C6 at a concrete timestamp, message and log. -/
theorem error_entry_appended_witness :
    '\n' ∉ ("2024-01-01 00:00:00" : String).data
      ∧ '\n' ∉ ("boom" : String).data
      ∧ (execute_script "2024-01-01 00:00:00" (ExecOutcome.raised "boom") (some "old\n")
            = some (((some "old\n").getD "")
                ++ mkErrorEntry "2024-01-01 00:00:00" "boom")
        ∧ pyReadlines (mkErrorEntry "2024-01-01 00:00:00" "boom")
            = ["[" ++ "2024-01-01 00:00:00" ++ "] ERROR: " ++ "boom" ++ "\n",
               dashLine ++ "\n"]) :=
  ⟨by decide, by decide,
    error_entry_appended "2024-01-01 00:00:00" "boom" (some "old\n")
      (by decide) (by decide)⟩

/-- C7: the log entry of a completed execution consists of the timestamped
exit-code line, a STDOUT line with the stripped stdout exactly when the
captured stdout is nonempty, a STDERR line with the stripped stderr exactly
when the captured stderr is nonempty, and a 50-dash separator line; stated for
entries whose variable parts contain no interior newline. -/
theorem completed_entry_structure (timestamp : String) (r : ProcResult)
    (hts : '\n' ∉ timestamp.data)
    (hrc : '\n' ∉ (toString r.returncode).data)
    (hout : '\n' ∉ (pyStripS r.stdout).data)
    (herr : '\n' ∉ (pyStripS r.stderr).data) :
    pyReadlines (mkLogEntry timestamp r)
      = ["[" ++ timestamp ++ "] Exit code: " ++ toString r.returncode ++ "\n"]
          ++ (if r.stdout ≠ "" then ["STDOUT: " ++ pyStripS r.stdout ++ "\n"] else [])
          ++ (if r.stderr ≠ "" then ["STDERR: " ++ pyStripS r.stderr ++ "\n"] else [])
          ++ [dashLine ++ "\n"]
      ∧ dashLine.length = 50 ∧ (∀ c ∈ dashLine.data, c = '-') := by
  have hdash : '\n' ∉ dashLine.data := by decide
  have ha1 : '\n' ∉ ("[" ++ timestamp ++ "] Exit code: " ++ toString r.returncode).data := by
    simp only [data_append, List.mem_append, not_or]
    exact ⟨⟨⟨by decide, hts⟩, by decide⟩, hrc⟩
  have hb2 : '\n' ∉ ("STDOUT: " ++ pyStripS r.stdout).data := by
    simp only [data_append, List.mem_append, not_or]
    exact ⟨by decide, hout⟩
  have hb3 : '\n' ∉ ("STDERR: " ++ pyStripS r.stderr).data := by
    simp only [data_append, List.mem_append, not_or]
    exact ⟨by decide, herr⟩
  refine ⟨?_, by decide, by decide⟩
  by_cases ho : r.stdout = "" <;> by_cases he : r.stderr = ""
  · have hshape : mkLogEntry timestamp r
        = (("[" ++ timestamp ++ "] Exit code: " ++ toString r.returncode) ++ "\n")
            ++ (dashLine ++ "\n") := by
      simp [mkLogEntry, ho, he]
    rw [hshape, pyReadlines_cons _ _ ha1, pyReadlines_single _ hdash]
    simp [ho, he]
  · have hshape : mkLogEntry timestamp r
        = (("[" ++ timestamp ++ "] Exit code: " ++ toString r.returncode) ++ "\n")
            ++ ((("STDERR: " ++ pyStripS r.stderr) ++ "\n") ++ (dashLine ++ "\n")) := by
      simp [mkLogEntry, ho, he, str_append_assoc]
    rw [hshape, pyReadlines_cons _ _ ha1, pyReadlines_cons _ _ hb3,
      pyReadlines_single _ hdash]
    simp [ho, he]
  · have hshape : mkLogEntry timestamp r
        = (("[" ++ timestamp ++ "] Exit code: " ++ toString r.returncode) ++ "\n")
            ++ ((("STDOUT: " ++ pyStripS r.stdout) ++ "\n") ++ (dashLine ++ "\n")) := by
      simp [mkLogEntry, ho, he, str_append_assoc]
    rw [hshape, pyReadlines_cons _ _ ha1, pyReadlines_cons _ _ hb2,
      pyReadlines_single _ hdash]
    simp [ho, he]
  · have hshape : mkLogEntry timestamp r
        = (("[" ++ timestamp ++ "] Exit code: " ++ toString r.returncode) ++ "\n")
            ++ ((("STDOUT: " ++ pyStripS r.stdout) ++ "\n")
              ++ ((("STDERR: " ++ pyStripS r.stderr) ++ "\n") ++ (dashLine ++ "\n"))) := by
      simp [mkLogEntry, ho, he, str_append_assoc]
    rw [hshape, pyReadlines_cons _ _ ha1, pyReadlines_cons _ _ hb2,
      pyReadlines_cons _ _ hb3, pyReadlines_single _ hdash]
    simp [ho, he]

/-- Witness for C7 at a concrete run exiting 0 with stdout hello. -/
theorem completed_entry_structure_witness :
    '\n' ∉ ("2024-01-01 00:00:00" : String).data
      ∧ '\n' ∉ (toString (ProcResult.mk 0 "hello" "").returncode).data
      ∧ '\n' ∉ (pyStripS (ProcResult.mk 0 "hello" "").stdout).data
      ∧ '\n' ∉ (pyStripS (ProcResult.mk 0 "hello" "").stderr).data
      ∧ (pyReadlines (mkLogEntry "2024-01-01 00:00:00" (ProcResult.mk 0 "hello" ""))
          = ["[" ++ "2024-01-01 00:00:00" ++ "] Exit code: "
                ++ toString (ProcResult.mk 0 "hello" "").returncode ++ "\n"]
              ++ (if (ProcResult.mk 0 "hello" "").stdout ≠ "" then
                    ["STDOUT: " ++ pyStripS (ProcResult.mk 0 "hello" "").stdout ++ "\n"]
                  else [])
              ++ (if (ProcResult.mk 0 "hello" "").stderr ≠ "" then
                    ["STDERR: " ++ pyStripS (ProcResult.mk 0 "hello" "").stderr ++ "\n"]
                  else [])
              ++ [dashLine ++ "\n"]
          ∧ dashLine.length = 50 ∧ (∀ c ∈ dashLine.data, c = '-')) :=
  ⟨by decide, by decide, by decide, by decide,
    completed_entry_structure "2024-01-01 00:00:00" (ProcResult.mk 0 "hello" "")
      (by decide) (by decide) (by decide) (by decide)⟩

/-- Closed form of the wait loop under a monotone flag that is true for
exactly the first k polls: starting from any elapsed count it runs until
elapsed reaches the interval or the flag clears, whichever is first. -/
lemma waitSleeps_flag (interval k : Nat) (running : Nat → Bool)
    (hr : ∀ n, running n = true ↔ n < k) :
    ∀ e, waitSleeps running interval e = max e (min interval k) := by
  have H : ∀ fuel e, interval - e ≤ fuel →
      waitSleeps running interval e = max e (min interval k) := by
    intro fuel
    induction fuel with
    | zero =>
      intro e he
      rw [waitSleeps, dif_neg]
      · omega
      · rintro ⟨h1, _⟩
        omega
    | succ f ih =>
      intro e he
      by_cases hc : e < interval ∧ running e = true
      · rw [waitSleeps, dif_pos hc]
        have hek : e < k := (hr e).mp hc.2
        have h1 : e < interval := hc.1
        rw [ih (e + 1) (by omega)]
        omega
      · rw [waitSleeps, dif_neg hc]
        have hnk : ¬ (e < interval ∧ e < k) := fun h2 => hc ⟨h2.1, (hr e).mpr h2.2⟩
        omega
  intro e
  exact H (interval - e) e le_rfl

/-- C8: the wait loop polls the shutdown flag after each one-second sleep.
With the flag observed true for exactly the first k polls (a termination
signal delivered during sleep number k clears it), the loop performs exactly
min interval k one-second sleeps in total: after the poll that observes the
cleared flag no further sleep happens, so at most the sleep in progress - one
second - separates the signal from the loop exit, rather than the full
configured interval. -/
theorem shutdown_within_one_poll (interval k : Nat) :
    waitSleeps (fun n => decide (n < k)) interval 0 = min interval k
      ∧ min interval k ≤ k := by
  constructor
  · have h := waitSleeps_flag interval k (fun n => decide (n < k)) (fun n => by simp) 0
    omega
  · exact Nat.min_le_right interval k
